import Mathlib

/-!
Verification of the shuttle deployer's persistence layer and log capture
layer (`src/deployer/src/persistence/mod.rs` and
`src/deployer/src/deployment/deploy_layer.rs`) as a shallow embedding.

The SQLite database is modelled as lists of rows, one list per table, and
each SQL statement of `persistence/mod.rs` as the corresponding total
function on that model.  The tracing capture layer (`DeployLayer`) is
modelled as functions from the recorded span attributes and event fields
to the emitted `Log` values.

Types that live in repository files not present under `src/`
(`persistence/state.rs`, `persistence/deployment.rs`, `persistence/log.rs`,
`persistence/secret.rs`, `persistence/service.rs`, `shuttle_common`) are
modelled from the spec; each such definition carries a doc comment saying
so.
-/

/-- Deployment identifier.  Models `uuid::Uuid` (external crate): a
128-bit value; `nil` is the all-zero UUID. -/
structure Uuid where
  val : Nat
  deriving DecidableEq, Repr

/-- The nil (all-zero) UUID, `Uuid::nil()` / `Uuid::default()`. -/
def Uuid.nil : Uuid := ⟨0⟩

/-- Value of a hex digit character, `none` for a non-hex character. -/
def hexDigitVal (c : Char) : Option Nat :=
  if '0' ≤ c ∧ c ≤ '9' then some (c.toNat - '0'.toNat)
  else if 'a' ≤ c ∧ c ≤ 'f' then some (c.toNat - 'a'.toNat + 10)
  else if 'A' ≤ c ∧ c ≤ 'F' then some (c.toNat - 'A'.toNat + 10)
  else none

/-- Fold a list of hex digit characters into a number; `none` if any
character is not a hex digit. -/
def parseHexNat (cs : List Char) : Option Nat :=
  cs.foldl (fun acc c =>
    match acc, hexDigitVal c with
    | some n, some d => some (n * 16 + d)
    | _, _ => none) (some 0)

/-- Models `Uuid::try_parse` (external `uuid` crate): accepts the
hyphenated `8-4-4-4-12` hex form and the simple 32-hex-digit form, fails
on anything else. -/
def Uuid.tryParse (s : String) : Option Uuid :=
  let cs := s.data
  if cs.length = 36 then
    let groups := [cs.take 8, (cs.drop 9).take 4, (cs.drop 14).take 4,
                   (cs.drop 19).take 4, cs.drop 24]
    if cs.get? 8 = some '-' ∧ cs.get? 13 = some '-' ∧
       cs.get? 18 = some '-' ∧ cs.get? 23 = some '-' then
      (parseHexNat groups.flatten).map Uuid.mk
    else none
  else if cs.length = 32 then
    (parseHexNat cs).map Uuid.mk
  else none

/-- Modelled from the spec (§3): the deployment state vocabulary of
`persistence/state.rs`, a file of this repository not under `src/`.
`Queued → Building → Built → Loading → Running → {Completed|Crashed|Stopped}`. -/
inductive State where
  | queued
  | building
  | built
  | loading
  | running
  | completed
  | crashed
  | stopped
  deriving DecidableEq, Repr

/-- Modelled from the spec: the default state used by
`State::from_str(..).unwrap_or_default()` and `ScopeDetails::default()`
(`state.rs` is not under `src/`); the spec's lifecycle starts at `Queued`. -/
instance : Inhabited State := ⟨State.queued⟩

/-- Modelled from the spec: parsing a state by its name (`State::from_str`,
from the missing `state.rs`); the names are the spec's §3 identifiers. -/
def State.fromStr : String → Option State
  | "Queued" => some .queued
  | "Building" => some .building
  | "Built" => some .built
  | "Loading" => some .loading
  | "Running" => some .running
  | "Completed" => some .completed
  | "Crashed" => some .crashed
  | "Stopped" => some .stopped
  | _ => none

/-- Log level.  Modelled from the spec (the `Level` enum of the missing
`persistence/log.rs`). -/
inductive Level where
  | trace
  | debug
  | info
  | warn
  | error
  deriving DecidableEq, Repr

/-- An IPv4 socket address.  Models `std::net::SocketAddr` as produced and
consumed by the deployer (dotted quad plus port). -/
structure SocketAddr where
  a : Nat
  b : Nat
  c : Nat
  d : Nat
  port : Nat
  deriving DecidableEq, Repr

/-- Parse a decimal number from characters; `none` when empty or any
character is not a digit. -/
def parseDecNat (cs : List Char) : Option Nat :=
  if cs.isEmpty then none
  else
    cs.foldl (fun acc c =>
      match acc with
      | some n => if c.isDigit then some (n * 10 + (c.toNat - '0'.toNat)) else none
      | none => none) (some 0)

/-- Split a character list on a separator character. -/
def splitOnChar (sep : Char) : List Char → List (List Char)
  | [] => [[]]
  | c :: rest =>
    match splitOnChar sep rest with
    | [] => [[]]
    | g :: gs => if c = sep then [] :: g :: gs else (c :: g) :: gs

/-- Models `SocketAddr::from_str` (std): `a.b.c.d:port` with each octet
at most 255 and the port at most 65535; other shapes fail. -/
def SocketAddr.fromStr (s : String) : Option SocketAddr :=
  match splitOnChar ':' s.data with
  | [ip, portStr] =>
    match (splitOnChar '.' ip).map parseDecNat with
    | [some a, some b, some c, some d] =>
      match parseDecNat portStr with
      | some port =>
        if a ≤ 255 ∧ b ≤ 255 ∧ c ≤ 255 ∧ d ≤ 255 ∧ port ≤ 65535 then
          some ⟨a, b, c, d, port⟩
        else none
      | none => none
    | _ => none
  | _ => none

/-- Models `SocketAddr::to_string` (std), used when binding an address
into an SQL statement. -/
def SocketAddr.render (s : SocketAddr) : String :=
  s!"{s.a}.{s.b}.{s.c}.{s.d}:{s.port}"

/-- A primitive JSON value.  The `JsonVisitor` of `deploy_layer.rs` only
ever inserts scalars (strings, numbers, booleans, stringified errors and
debug renderings), so field maps need only primitive values. -/
inductive JPrim where
  | str (s : String)
  | num (n : Nat)
  | boolean (b : Bool)
  | null
  deriving DecidableEq, Repr

/-- A JSON object as produced by `JsonVisitor` (`serde_json::Map` with
string keys and primitive values). -/
abbrev JMap := List (String × JPrim)

/-- A JSON value as stored in the `fields` column: either a scalar (the
`"NEW STATE"` sentinel, or `Null` for freshly created state logs) or the
object captured from an event. -/
inductive JVal where
  | prim (p : JPrim)
  | obj (m : JMap)
  deriving DecidableEq, Repr

/-- Models `serde_json::Map::remove`: drop every binding of key `k`. -/
def JMap.erase (m : JMap) (k : String) : JMap :=
  m.filter (fun p => p.1 ≠ k)

/-- Models `Value::as_str`: `some` only for strings. -/
def JPrim.asStr : JPrim → Option String
  | .str s => some s
  | _ => none

/-- Models `Value::as_u64`: `some` only for (non-negative) numbers. -/
def JPrim.asU64 : JPrim → Option Nat
  | .num n => some n
  | _ => none

/-- Models `shuttle_common::STATE_MESSAGE` (repository code not under
`src/`): the spec's §6 log line sentinel, pinned by the
`log_recorder_state` test of `persistence/mod.rs`. -/
def STATE_MESSAGE : String := "NEW STATE"

/-- Modelled from the spec (§3): a row of the `services` table
(`persistence/service.rs` is not under `src/`). -/
structure Service where
  id : Uuid
  name : String
  deriving DecidableEq, Repr

/-- Modelled from the spec (§3): a row of the `deployments` table
(`persistence/deployment.rs` is not under `src/`).  The `address` column
is the raw nullable TEXT column, holding the `to_string` rendering of the
socket bound by `update_deployment` / `insert_deployment`. -/
structure Deployment where
  id : Uuid
  service_id : Uuid
  state : State
  last_update : Nat
  address : Option String
  deriving DecidableEq, Repr

/-- Modelled from the spec (§3): a row of the `logs` table
(`persistence/log.rs` is not under `src/`); the columns bound by
`insert_log` in `persistence/mod.rs`. -/
structure PersistedLog where
  id : Uuid
  timestamp : Nat
  state : State
  level : Level
  file : Option String
  line : Option Nat
  target : String
  fields : JVal
  deriving DecidableEq, Repr

/-- Modelled from the spec (§3): a row of the `secrets` table
(`persistence/secret.rs` is not under `src/`). -/
structure Secret where
  service_id : Uuid
  key : String
  value : String
  last_update : Nat
  deriving DecidableEq, Repr

/-- The contents of the embedded SQLite database, one list per table. -/
structure DB where
  services : List Service
  deployments : List Deployment
  logs : List PersistedLog
  secrets : List Secret
  deriving DecidableEq, Repr

/-- The partial deployment update carried by a state log
(`persistence::DeploymentState`, from the missing `deployment.rs`; its
fields are the four bound by `update_deployment`). -/
structure DeploymentState where
  id : Uuid
  state : State
  last_update : Nat
  address : Option SocketAddr
  deriving DecidableEq, Repr

/-- The two log kinds of `deploy_layer::LogType`. -/
inductive LogType where
  | event
  | state
  deriving DecidableEq, Repr

/-- The capture layer's log (`deploy_layer::Log`): an event or state
transition log, with the not-yet-parsed `address` string. -/
structure DeployLog where
  id : Uuid
  state : State
  level : Level
  timestamp : Nat
  file : Option String
  line : Option Nat
  target : String
  fields : JVal
  type : LogType
  address : Option String
  deriving DecidableEq, Repr

/-- Conversion `From<deploy_layer::Log> for persistence::Log`
(`deploy_layer.rs:69-89`): state logs get the `STATE_MESSAGE` sentinel as
`fields`, event logs keep theirs; every other column (the `target`
included) is carried over unchanged. -/
def PersistedLog.ofDeployLog (log : DeployLog) : PersistedLog :=
  let fields := match log.type with
    | .event => log.fields
    | .state => .prim (.str STATE_MESSAGE)
  { id := log.id
    timestamp := log.timestamp
    state := log.state
    level := log.level
    file := log.file
    line := log.line
    target := log.target
    fields := fields }

/-- Conversion `From<deploy_layer::Log> for DeploymentState`
(`deploy_layer.rs:106-127`): the address string is parsed as a socket;
a parse failure is logged and degraded to `None`. -/
def DeploymentState.ofDeployLog (log : DeployLog) : DeploymentState :=
  let address := match log.address with
    | some addressStr =>
      match SocketAddr.fromStr addressStr with
      | some address => some address
      | none => none
    | none => none
  { id := log.id
    state := log.state
    last_update := log.timestamp
    address := address }

/-- The SQL `INSERT INTO logs ...` of `insert_log`
(`persistence/mod.rs:318-334`): appends a row to the `logs` table. -/
def DB.insert_log (db : DB) (log : PersistedLog) : DB :=
  { db with logs := db.logs ++ [log] }

/-- The SQL `UPDATE deployments SET state = ?, last_update = ?, address = ?
WHERE id = ?` of `update_deployment` (`persistence/mod.rs:294-308`); the
socket is bound through its `to_string` rendering. -/
def DB.update_deployment (db : DB) (st : DeploymentState) : DB :=
  { db with deployments := db.deployments.map (fun row =>
      if row.id = st.id then
        { row with
          state := st.state
          last_update := st.last_update
          address := st.address.map SocketAddr.render }
      else row) }

/-- The state log the router worker builds for a `LogType::State` log
(`persistence/mod.rs:115-127`): the original columns with an empty
`target` and the `STATE_MESSAGE` sentinel as `fields`. -/
def routerStateLog (log : DeployLog) : PersistedLog :=
  { id := log.id
    timestamp := log.timestamp
    state := log.state
    level := log.level
    file := log.file
    line := log.line
    target := ""
    fields := .prim (.str STATE_MESSAGE) }

/-- One iteration of the log router worker loop spawned by
`Persistence::from_pool` (`persistence/mod.rs:100-160`).  `insertFails`
and `updateFails` say whether the corresponding persistence call errors;
in the source each error is passed to `unwrap_or_else(|error| error!(..))`,
i.e. trace/error-logged and swallowed, so a failing call simply leaves
the store untouched and the worker carries on. -/
def routerProcess (db : DB) (log : DeployLog) (insertFails updateFails : Bool) : DB :=
  match log.type with
  | .event =>
    if insertFails then db else db.insert_log (PersistedLog.ofDeployLog log)
  | .state =>
    let db1 := if insertFails then db else db.insert_log (routerStateLog log)
    if updateFails then db1 else db1.update_deployment (DeploymentState.ofDeployLog log)

/-- The router worker draining its ingress channel: each queued log is
processed with its own failure outcome, and the worker always proceeds to
the next one. -/
def routerRun (db : DB) : List (DeployLog × Bool × Bool) → DB
  | [] => db
  | (log, insertFails, updateFails) :: rest =>
    routerRun (routerProcess db log insertFails updateFails) rest

/-- The states rewritten by `cleanup_invalid_states`
(`persistence/mod.rs:210-221`): the bound `IN (?, ?, ?, ?)` list
`Queued, Built, Building, Loading`. -/
def State.isInvalid : State → Bool
  | .queued => true
  | .built => true
  | .building => true
  | .loading => true
  | _ => false

/-- The SQL `UPDATE deployments SET state = Stopped WHERE state IN
(Queued, Built, Building, Loading)` of `cleanup_invalid_states`
(`persistence/mod.rs:210-221`). -/
def DB.cleanup_invalid_states (db : DB) : DB :=
  { db with deployments := db.deployments.map (fun row =>
      if row.state.isInvalid then { row with state := .stopped } else row) }

/-- Comparison used by SQL `ORDER BY last_update` over deployment rows. -/
def byLastUpdate (a b : Deployment) : Prop := a.last_update ≤ b.last_update

instance : DecidableRel byLastUpdate := fun a b => Nat.decLe a.last_update b.last_update

instance : IsTotal Deployment byLastUpdate := ⟨fun a b => Nat.le_total a.last_update b.last_update⟩

instance : IsTrans Deployment byLastUpdate := ⟨fun _ _ _ => Nat.le_trans⟩

/-- The deployment rows matched by the `get_address_for_service` query
(`persistence/mod.rs:415-424`): `JOIN services ON d.service_id = s.id
WHERE s.name = ? AND d.state = Running`, one result row per matching
(deployment, service) pair. -/
def addressQueryRows (db : DB) (service_name : String) : List Deployment :=
  db.deployments.flatMap (fun d =>
    if d.state = .running then
      (db.services.filter (fun s => s.id = d.service_id ∧ s.name = service_name)).map
        (fun _ => d)
    else [])

/-- The errors `get_address_for_service` can surface
(`crate::handlers::Error`): a persistence/decode error, or the
string→socket `Convert` error. -/
inductive HandlersError where
  | persistence
  | convert
  deriving DecidableEq, Repr

/-- `get_address_for_service` (`persistence/mod.rs:408-441`): the first
row of the join ordered by `last_update` (`fetch_optional`); no row gives
`Ok(None)`; a NULL address fails to decode into `(String,)` and surfaces
as a persistence error; an undecodable socket string surfaces as a
`Convert` error. -/
def DB.get_address_for_service (db : DB) (service_name : String) :
    Except HandlersError (Option SocketAddr) :=
  match (List.insertionSort byLastUpdate (addressQueryRows db service_name)).head? with
  | none => .ok none
  | some d =>
    match d.address with
    | none => .error .persistence
    | some addressStr =>
      match SocketAddr.fromStr addressStr with
      | some address => .ok (some address)
      | none => .error .convert

/-- A row of the `get_all_runnable_deployments` query before the final
column projection: the joined columns plus the `last_update` the SQL
sorts on. -/
structure RunnableRow where
  id : Uuid
  service_id : Uuid
  service_name : String
  last_update : Nat
  deriving DecidableEq, Repr

/-- Comparison used by SQL `ORDER BY last_update` over joined runnable
rows. -/
def runnableByLastUpdate (a b : RunnableRow) : Prop := a.last_update ≤ b.last_update

instance : DecidableRel runnableByLastUpdate := fun a b => Nat.decLe a.last_update b.last_update

instance : IsTotal RunnableRow runnableByLastUpdate := ⟨fun a b => Nat.le_total a.last_update b.last_update⟩

instance : IsTrans RunnableRow runnableByLastUpdate := ⟨fun _ _ _ => Nat.le_trans⟩

/-- The join `deployments JOIN services ON s.id = d.service_id WHERE
state = Running` of `get_all_runnable_deployments`
(`persistence/mod.rs:266-278`), before sorting. -/
def runnableJoin (db : DB) : List RunnableRow :=
  db.deployments.flatMap (fun d =>
    if d.state = .running then
      (db.services.filter (fun s => s.id = d.service_id)).map
        (fun s => ⟨d.id, d.service_id, s.name, d.last_update⟩)
    else [])

/-- The sorted join rows of `get_all_runnable_deployments`
(`ORDER BY last_update`). -/
def runnableRows (db : DB) : List RunnableRow :=
  List.insertionSort runnableByLastUpdate (runnableJoin db)

/-- The result row type `DeploymentRunnable` (`SELECT d.id, service_id,
s.name AS service_name`). -/
structure DeploymentRunnable where
  id : Uuid
  service_name : String
  service_id : Uuid
  deriving DecidableEq, Repr

/-- `get_all_runnable_deployments` (`persistence/mod.rs:266-278`): the
Running rows joined with their service name, ordered by `last_update`,
projected onto `(id, service_name, service_id)`. -/
def DB.get_all_runnable_deployments (db : DB) : List DeploymentRunnable :=
  (runnableRows db).map (fun r => ⟨r.id, r.service_name, r.service_id⟩)

/-- `insert_secret` (`persistence/mod.rs:380-392`): SQL `INSERT OR
REPLACE` under the `(service_id, key)` primary key — every conflicting
row is deleted and the new row inserted, with `last_update = Utc::now()`
passed here as `now`. -/
def DB.insert_secret (db : DB) (service_id : Uuid) (key value : String) (now : Nat) : DB :=
  { db with secrets :=
      db.secrets.filter (fun r => ¬(r.service_id = service_id ∧ r.key = key)) ++
        [⟨service_id, key, value, now⟩] }

/-- Comparison used by SQL `ORDER BY key` over secret rows. -/
def byKey (a b : Secret) : Prop := a.key ≤ b.key

instance : DecidableRel byKey := fun a b => inferInstanceAs (Decidable (a.key ≤ b.key))

instance : IsTotal Secret byKey := ⟨fun a b => le_total a.key b.key⟩

instance : IsTrans Secret byKey := ⟨fun _ _ _ => le_trans⟩

/-- `get_secrets` (`persistence/mod.rs:399-405`): `SELECT * FROM secrets
WHERE service_id = ? ORDER BY key`. -/
def DB.get_secrets (db : DB) (service_id : Uuid) : List Secret :=
  List.insertionSort byKey (db.secrets.filter (fun r => r.service_id = service_id))

/-- The event/span metadata the capture layer consults
(`tracing::Metadata`): level, target, file, line, whether the callsite is
a span, and the names of its declared fields. -/
structure Metadata where
  level : Level
  target : String
  file : Option String
  line : Option Nat
  isSpan : Bool
  fieldNames : List String
  deriving DecidableEq, Repr

/-- The scope details attached to a deployment-bearing span
(`deploy_layer.rs:257-263`); `Default` gives the nil UUID and the default
state. -/
structure ScopeDetails where
  id : Uuid
  state : State
  address : Option String
  deriving DecidableEq, Repr

/-- `ScopeDetails::default()`: nil id, default state, no address. -/
def ScopeDetails.default : ScopeDetails :=
  { id := Uuid.nil, state := (Inhabited.default : State), address := none }

/-- `NewStateVisitor::is_valid` (`deploy_layer.rs:293-297`): a span whose
metadata declares both an `id` and a `state` field. -/
def NewStateVisitor.is_valid (m : Metadata) : Bool :=
  m.isSpan && m.fieldNames.contains "id" && m.fieldNames.contains "state"

/-- `NewStateVisitor::record_debug` (`deploy_layer.rs:300-310`), applied
to one recorded span attribute.  `value` is the `format!("{value:?}")`
rendering the source builds.  A `state` that fails to parse falls back to
the default state; an `id` that fails to parse falls back to the nil
UUID; an `address` is kept verbatim. -/
def NewStateVisitor.record_debug (d : ScopeDetails) (field value : String) : ScopeDetails :=
  if field = "state" then
    { d with state := (State.fromStr value).getD default }
  else if field = "id" then
    { d with id := (Uuid.tryParse value).getD Uuid.nil }
  else if field = "address" then
    { d with address := some value }
  else d

/-- The details extracted by running the visitor over the recorded span
attributes, starting from `NewStateVisitor::default()`. -/
def visitAttributes (recorded : List (String × String)) : ScopeDetails :=
  recorded.foldl (fun d p => NewStateVisitor.record_debug d p.1 p.2) ScopeDetails.default

/-- What one `on_new_span` call does: the log it hands to the recorder,
the `ScopeDetails` it inserts into the span's extensions, and whether it
emitted the `warn!` for a nil id. -/
structure NewSpanResult where
  emitted : Option DeployLog
  attached : Option ScopeDetails
  warned : Bool
  deriving DecidableEq, Repr

/-- `DeployLayer::on_new_span` (`deploy_layer.rs:213-254`): spans without
both `id` and `state` fields are ignored; a nil parsed id is dropped with
a warning, recording nothing and attaching nothing; otherwise a
`LogType::State` log with empty (`Default`, i.e. `Null`) fields and the
scope's address is recorded, and the details are attached.  `now` stands
for `Utc::now()`. -/
def on_new_span (m : Metadata) (recorded : List (String × String)) (now : Nat) :
    NewSpanResult :=
  if NewStateVisitor.is_valid m then
    let details := visitAttributes recorded
    if details.id = Uuid.nil then
      { emitted := none, attached := none, warned := true }
    else
      { emitted := some
          { id := details.id
            state := details.state
            level := m.level
            timestamp := now
            file := m.file
            line := m.line
            target := m.target
            fields := .prim .null
            type := .state
            address := details.address }
        attached := some details
        warned := false }
  else
    { emitted := none, attached := none, warned := false }

/-- The event log `DeployLayer::on_event` builds once it has found a
deployment-bearing scope (`deploy_layer.rs:170-207`): the bridge fields
`log.target`, `log.line`, `log.file` are removed from the captured map
and promoted into their columns (falling back to the event metadata),
`log.module_path` is removed, and the remaining map becomes `fields`. -/
def mkEventLog (details : ScopeDetails) (m : Metadata) (eventFields : JMap)
    (now : Nat) : DeployLog :=
  let target := match List.lookup "log.target" eventFields with
    | some v => v.asStr.getD ""
    | none => m.target
  let line := match List.lookup "log.line" eventFields with
    | some v => v.asU64.bind (fun u => if u < 2 ^ 32 then some u else none)
    | none => m.line
  let file := match List.lookup "log.file" eventFields with
    | some v => v.asStr
    | none => m.file
  let remaining :=
    ((((eventFields.erase "log.target").erase "log.line").erase
        "log.file").erase "log.module_path" : JMap)
  { id := details.id
    state := details.state
    level := m.level
    timestamp := now
    file := file
    line := line
    target := target
    fields := .obj remaining
    type := .event
    address := none }

/-- `DeployLayer::on_event` (`deploy_layer.rs:157-211`): walk the scope
stack from the root and use the first span that carries `ScopeDetails`;
events outside any deployment-bearing scope record nothing.  The stack is
given root-first, each entry being the details attached to that span (or
`none`). -/
def on_event (stack : List (Option ScopeDetails)) (m : Metadata)
    (eventFields : JMap) (now : Nat) : Option DeployLog :=
  (stack.findSome? id).map (fun details => mkEventLog details m eventFields now)

/-! Helper lemmas. -/

/-- Inserting a log row leaves the `deployments` table unchanged. -/
theorem insert_log_deployments (db : DB) (l : PersistedLog) :
    (db.insert_log l).deployments = db.deployments := rfl

/-- Updating a deployment leaves the `logs` table unchanged. -/
theorem update_deployment_logs (db : DB) (st : DeploymentState) :
    (db.update_deployment st).logs = db.logs := rfl

/-- The address parsed out of a capture-layer log is the bind of the
optional address string through the socket parser. -/
theorem DeploymentState.ofDeployLog_address (log : DeployLog) :
    (DeploymentState.ofDeployLog log).address = log.address.bind SocketAddr.fromStr := by
  unfold DeploymentState.ofDeployLog
  cases log.address with
  | none => rfl
  | some s =>
    simp only [Option.bind_some]
    cases h : SocketAddr.fromStr s <;> simp [h]

/-- C6: after `cleanup_invalid_states()` completes, no deployment row has
state in {Queued, Building, Built, Loading}; every row that had one of
those states now has state Stopped (other columns untouched), and every
row whose state was Running, Completed, Crashed or Stopped is unchanged
in all columns. -/
theorem cleanup_invalid_states_spec (db : DB) :
    (∀ r ∈ db.cleanup_invalid_states.deployments,
        r.state ≠ .queued ∧ r.state ≠ .building ∧ r.state ≠ .built ∧ r.state ≠ .loading) ∧
    List.Forall₂ (fun (old new : Deployment) =>
        ((old.state = .queued ∨ old.state = .building ∨ old.state = .built ∨
            old.state = .loading) → new = { old with state := .stopped }) ∧
        ((old.state = .running ∨ old.state = .completed ∨ old.state = .crashed ∨
            old.state = .stopped) → new = old))
      db.deployments db.cleanup_invalid_states.deployments := by
  constructor
  · intro r hr
    simp only [DB.cleanup_invalid_states, List.mem_map] at hr
    obtain ⟨r0, _, rfl⟩ := hr
    by_cases h : r0.state.isInvalid <;>
      simp only [h, if_pos, if_neg, Bool.not_eq_true] <;>
      cases hs : r0.state <;> simp_all [State.isInvalid]
  · have heq : db.cleanup_invalid_states.deployments =
        db.deployments.map (fun row =>
          if row.state.isInvalid then { row with state := .stopped } else row) := rfl
    rw [heq, List.forall₂_map_right_iff]
    rw [List.forall₂_same]
    intro r _
    constructor
    · intro h
      have hinv : r.state.isInvalid = true := by
        rcases h with h | h | h | h <;> simp [h, State.isInvalid]
      simp [hinv]
    · intro h
      have hinv : r.state.isInvalid = false := by
        rcases h with h | h | h | h <;> simp [h, State.isInvalid]
      simp [hinv]

/-- C6 witness: a concrete store with a Building row, cleaned to Stopped. -/
theorem cleanup_invalid_states_spec_witness :
    (⟨⟨1⟩, ⟨7⟩, .stopped, 3, none⟩ : Deployment).state ≠ .queued ∧
    (⟨⟨1⟩, ⟨7⟩, .stopped, 3, none⟩ : Deployment).state ≠ .building ∧
    (⟨⟨1⟩, ⟨7⟩, .stopped, 3, none⟩ : Deployment).state ≠ .built ∧
    (⟨⟨1⟩, ⟨7⟩, .stopped, 3, none⟩ : Deployment).state ≠ .loading :=
  (cleanup_invalid_states_spec (DB.mk [] [⟨⟨1⟩, ⟨7⟩, .building, 3, none⟩] [] [])).1
    ⟨⟨1⟩, ⟨7⟩, .stopped, 3, none⟩ (by decide)

/-- C2: after the log router processes a `State` log for a deployment,
every deployment row bearing the log's id has its `state` column equal to
the log's state, its `last_update` column equal to the log's timestamp,
and its `address` column equal to the rendering of the log's address
string parsed as a socket — absent when the log carried no address or the
string does not parse. -/
theorem state_log_updates_deployment (db : DB) (log : DeployLog)
    (htype : log.type = .state) (insertFails : Bool) :
    ∀ r ∈ (routerProcess db log insertFails false).deployments, r.id = log.id →
      r.state = log.state ∧ r.last_update = log.timestamp ∧
      r.address = (log.address.bind SocketAddr.fromStr).map SocketAddr.render ∧
      ((log.address = none ∨ log.address.bind SocketAddr.fromStr = none) →
        r.address = none) := by
  intro r hr hid
  have hproc : (routerProcess db log insertFails false).deployments =
      ((if insertFails then db else db.insert_log (routerStateLog log)).update_deployment
        (DeploymentState.ofDeployLog log)).deployments := by
    simp [routerProcess, htype]
  rw [hproc] at hr
  have hrows : ((if insertFails then db else db.insert_log (routerStateLog log)).update_deployment
      (DeploymentState.ofDeployLog log)).deployments =
      db.deployments.map (fun row =>
        if row.id = (DeploymentState.ofDeployLog log).id then
          { row with
            state := (DeploymentState.ofDeployLog log).state
            last_update := (DeploymentState.ofDeployLog log).last_update
            address := (DeploymentState.ofDeployLog log).address.map SocketAddr.render }
        else row) := by
    cases insertFails <;> rfl
  rw [hrows] at hr
  have hst : (DeploymentState.ofDeployLog log).id = log.id ∧
      (DeploymentState.ofDeployLog log).state = log.state ∧
      (DeploymentState.ofDeployLog log).last_update = log.timestamp := by
    constructor
    · rfl
    · exact ⟨rfl, rfl⟩
  rcases List.mem_map.mp hr with ⟨r0, _, rfl⟩
  by_cases h0 : r0.id = (DeploymentState.ofDeployLog log).id
  · simp only [h0, if_pos]
    refine ⟨hst.2.1, hst.2.2, ?_, ?_⟩
    · rw [DeploymentState.ofDeployLog_address]
    · intro hnone
      rw [DeploymentState.ofDeployLog_address]
      rcases hnone with h | h
      · simp [h]
      · simp [h]
  · rw [if_neg h0] at hid ⊢
    exact absurd (hid.trans hst.1.symm) h0

/-- C2 witness: a Running state log with a parseable address, applied to
a store holding the deployment's row. -/
theorem state_log_updates_deployment_witness :
    (⟨⟨3⟩, ⟨7⟩, .running, 9, some "127.0.0.1:8000"⟩ : Deployment).state = .running ∧
    (⟨⟨3⟩, ⟨7⟩, .running, 9, some "127.0.0.1:8000"⟩ : Deployment).last_update = 9 ∧
    (⟨⟨3⟩, ⟨7⟩, .running, 9, some "127.0.0.1:8000"⟩ : Deployment).address =
      ((some "127.0.0.1:8000" : Option String).bind SocketAddr.fromStr).map
        SocketAddr.render ∧
    (((some "127.0.0.1:8000" : Option String) = none ∨
        (some "127.0.0.1:8000" : Option String).bind SocketAddr.fromStr = none) →
      (⟨⟨3⟩, ⟨7⟩, .running, 9, some "127.0.0.1:8000"⟩ : Deployment).address = none) :=
  state_log_updates_deployment
    (DB.mk [] [⟨⟨3⟩, ⟨7⟩, .queued, 1, none⟩] [] [])
    { id := ⟨3⟩, state := .running, level := .info, timestamp := 9, file := none,
      line := none, target := "", fields := .prim .null, type := .state,
      address := some "127.0.0.1:8000" }
    rfl false ⟨⟨3⟩, ⟨7⟩, .running, 9, some "127.0.0.1:8000"⟩ (by decide) rfl

/-- C5: failures of the persistence calls never escape the log router
worker and leave the two calls independent: the resulting `deployments`
table does not depend on whether `insert_log` failed, the resulting
`logs` table does not depend on whether `update_deployment` failed, and a
log whose calls all fail leaves the store untouched while the worker
proceeds to the rest of its queue. -/
theorem router_failures_are_independent (db : DB) (log : DeployLog)
    (insertFails updateFails : Bool) (rest : List (DeployLog × Bool × Bool)) :
    (routerProcess db log insertFails updateFails).deployments =
      (routerProcess db log false updateFails).deployments ∧
    (routerProcess db log insertFails updateFails).logs =
      (routerProcess db log insertFails false).logs ∧
    routerRun db ((log, true, true) :: rest) = routerRun db rest := by
  have hid : routerProcess db log true true = db := by
    unfold routerProcess
    cases log.type <;> simp
  refine ⟨?_, ?_, ?_⟩
  · unfold routerProcess
    cases log.type <;> cases insertFails <;> cases updateFails <;> rfl
  · unfold routerProcess
    cases log.type <;> cases insertFails <;> cases updateFails <;> rfl
  · show routerRun (routerProcess db log true true) rest = routerRun db rest
    rw [hid]

/-- Filtering with a predicate after keeping only its complement yields
nothing. -/
theorem filter_not_filter {α : Type} (p : α → Bool) (l : List α) :
    (l.filter (fun a => !p a)).filter p = [] := by
  induction l with
  | nil => rfl
  | cons x xs ih =>
    by_cases h : p x <;> simp [List.filter_cons, h, ih]

/-- The secrets table after upserting `(s, k)` twice: all previous
`(s, k)` rows removed, the second row appended, everything else in
place. -/
theorem insert_secret_table (db : DB) (s : Uuid) (k v1 v2 : String) (t1 t2 : Nat) :
    ((db.insert_secret s k v1 t1).insert_secret s k v2 t2).secrets =
      db.secrets.filter (fun r => ¬(r.service_id = s ∧ r.key = k)) ++
        [⟨s, k, v2, t2⟩] := by
  have h1 : ((db.insert_secret s k v1 t1).insert_secret s k v2 t2).secrets =
      ((db.secrets.filter (fun r : Secret => ¬(r.service_id = s ∧ r.key = k)) ++
          ([⟨s, k, v1, t1⟩] : List Secret)).filter
            (fun r : Secret => ¬(r.service_id = s ∧ r.key = k))) ++
        [⟨s, k, v2, t2⟩] := rfl
  rw [h1, List.filter_append, List.filter_filter]
  have h2 : ([⟨s, k, v1, t1⟩] : List Secret).filter
      (fun r => ¬(r.service_id = s ∧ r.key = k)) = [] := by simp
  rw [h2, List.append_nil]
  congr 1
  apply List.filter_congr
  intro x _
  simp

/-- C9: after `insert_secret(s, k, v1)` followed by
`insert_secret(s, k, v2)`, `get_secrets(s)` contains exactly one entry
with key `k` and its value is `v2`; table rows of other `(service, key)`
pairs are untouched, and `get_secrets` of any other service is
unchanged. -/
theorem insert_secret_upsert (db : DB) (s : Uuid) (k v1 v2 : String) (t1 t2 : Nat) :
    (((db.insert_secret s k v1 t1).insert_secret s k v2 t2).get_secrets s).filter
        (fun r => r.key = k) = [⟨s, k, v2, t2⟩] ∧
    ((db.insert_secret s k v1 t1).insert_secret s k v2 t2).secrets.filter
        (fun r => ¬(r.service_id = s ∧ r.key = k)) =
      db.secrets.filter (fun r => ¬(r.service_id = s ∧ r.key = k)) ∧
    (∀ s', s' ≠ s →
      ((db.insert_secret s k v1 t1).insert_secret s k v2 t2).get_secrets s' =
        db.get_secrets s') := by
  have htable := insert_secret_table db s k v1 v2 t1 t2
  refine ⟨?_, ?_, ?_⟩
  · have hperm : List.Perm
        ((((db.insert_secret s k v1 t1).insert_secret s k v2 t2).get_secrets s).filter
          (fun r => r.key = k))
        (((((db.insert_secret s k v1 t1).insert_secret s k v2 t2).secrets.filter
            (fun r : Secret => r.service_id = s)).filter (fun r => r.key = k))) :=
      (List.perm_insertionSort byKey _).filter _
    have heq : ((((db.insert_secret s k v1 t1).insert_secret s k v2 t2).secrets.filter
        (fun r : Secret => r.service_id = s)).filter (fun r => r.key = k)) =
        [⟨s, k, v2, t2⟩] := by
      rw [htable, List.filter_append, List.filter_append, List.filter_filter,
        List.filter_filter]
      have h1 : (db.secrets.filter fun a =>
          decide (a.key = k) && decide (a.service_id = s) &&
            decide ¬(a.service_id = s ∧ a.key = k)) = [] := by
        have h2 : (db.secrets.filter fun a =>
            decide (a.key = k) && decide (a.service_id = s) &&
              decide ¬(a.service_id = s ∧ a.key = k)) =
            db.secrets.filter (fun _ => false) := by
          apply List.filter_congr
          intro x _
          by_cases hxs : x.service_id = s <;> by_cases hxk : x.key = k <;> simp [hxs, hxk]
        rw [h2, List.filter_false]
      rw [h1]
      simp
    rw [heq] at hperm
    exact List.perm_singleton.mp hperm
  · rw [htable, List.filter_append, List.filter_filter]
    have h1 : ([⟨s, k, v2, t2⟩] : List Secret).filter
        (fun r => ¬(r.service_id = s ∧ r.key = k)) = [] := by simp
    rw [h1, List.append_nil]
    apply List.filter_congr
    intro x _
    simp
  · intro s' hs'
    show List.insertionSort byKey _ = List.insertionSort byKey _
    congr 1
    rw [htable, List.filter_append, List.filter_filter]
    have h1 : ([⟨s, k, v2, t2⟩] : List Secret).filter
        (fun r : Secret => r.service_id = s') = [] := by
      simp [Ne.symm hs']
    rw [h1, List.append_nil]
    apply List.filter_congr
    intro x _
    by_cases hx : x.service_id = s'
    · have hc : ¬(x.service_id = s ∧ x.key = k) := fun hcc => hs' (hx.symm.trans hcc.1)
      simp [hx, hc]
      exact Or.inl hs'

    · simp [hx]


/-- C9 witness: two upserts of the same key on a concrete store. -/
theorem insert_secret_upsert_witness :
    ((((DB.mk [] [] [] [⟨⟨5⟩, "other", "v", 0⟩]).insert_secret ⟨4⟩ "k" "v1" 1).insert_secret
        ⟨4⟩ "k" "v2" 2).get_secrets ⟨4⟩).filter
      (fun r => r.key = "k") = [⟨⟨4⟩, "k", "v2", 2⟩] ∧
    (((DB.mk [] [] [] [⟨⟨5⟩, "other", "v", 0⟩]).insert_secret ⟨4⟩ "k" "v1" 1).insert_secret
        ⟨4⟩ "k" "v2" 2).get_secrets ⟨5⟩ =
      (DB.mk [] [] [] [⟨⟨5⟩, "other", "v", 0⟩]).get_secrets ⟨5⟩ :=
  ⟨(insert_secret_upsert (DB.mk [] [] [] [⟨⟨5⟩, "other", "v", 0⟩]) ⟨4⟩ "k" "v1" "v2" 1 2).1,
   (insert_secret_upsert (DB.mk [] [] [] [⟨⟨5⟩, "other", "v", 0⟩]) ⟨4⟩ "k" "v1" "v2" 1 2).2.2
     ⟨5⟩ (by decide)⟩

/-- A concrete state-transition log whose `target` is not empty, as every
log produced by `on_new_span` is (it carries `metadata.target()`). -/
def c3StateLog : DeployLog :=
  { id := ⟨1⟩, state := .building, level := .info, timestamp := 5, file := none,
    line := none, target := "deployer::deployment::queue", fields := .prim .null,
    type := .state, address := none }

/-- C3 counterexample: the conversion `From<deploy_layer::Log> for
persistence::Log` does **not** empty the `target` column of a state log —
it copies the original target through; only the log-router path writes an
empty target. -/
theorem from_log_keeps_target_counterexample :
    c3StateLog.type = .state ∧
    (PersistedLog.ofDeployLog c3StateLog).fields = .prim (.str "NEW STATE") ∧
    (PersistedLog.ofDeployLog c3StateLog).target = "deployer::deployment::queue" ∧
    (PersistedLog.ofDeployLog c3StateLog).target ≠ "" := by
  refine ⟨rfl, rfl, rfl, ?_⟩
  decide

/-- C3 (amended): for every state log, the log router persists a row with
`fields` equal to the JSON string `"NEW STATE"` and `target` equal to the
empty string, while the `From<Log>` conversion sets `fields` to
`"NEW STATE"` but preserves the log's original `target`; for every event
log both paths persist the fields as-is. -/
theorem state_log_sentinel_spec (log : DeployLog) :
    (log.type = .state →
      (routerStateLog log).fields = .prim (.str STATE_MESSAGE) ∧
      (routerStateLog log).target = "" ∧
      (∀ db : DB, (routerProcess db log false false).logs =
        db.logs ++ [routerStateLog log]) ∧
      (PersistedLog.ofDeployLog log).fields = .prim (.str STATE_MESSAGE) ∧
      (PersistedLog.ofDeployLog log).target = log.target) ∧
    (log.type = .event →
      (PersistedLog.ofDeployLog log).fields = log.fields ∧
      (∀ db : DB, (routerProcess db log false false).logs =
        db.logs ++ [PersistedLog.ofDeployLog log])) := by
  constructor
  · intro htype
    refine ⟨rfl, rfl, ?_, ?_, rfl⟩
    · intro db
      simp [routerProcess, htype, DB.insert_log, update_deployment_logs]
    · simp [PersistedLog.ofDeployLog, htype]
  · intro htype
    refine ⟨?_, ?_⟩
    · simp [PersistedLog.ofDeployLog, htype]
    · intro db
      simp [routerProcess, htype, DB.insert_log]

/-- C3 witness: the amended statement evaluated on a concrete state log
and a concrete event log. -/
theorem state_log_sentinel_spec_witness :
    ((routerStateLog c3StateLog).target = "" ∧
      (routerStateLog c3StateLog).fields = .prim (.str STATE_MESSAGE)) ∧
    (PersistedLog.ofDeployLog
        { id := ⟨2⟩, state := .building, level := .info, timestamp := 6, file := none,
          line := none, target := "t", fields := .obj [("message", .str "hi")],
          type := .event, address := none }).fields =
      .obj [("message", .str "hi")] :=
  ⟨⟨((state_log_sentinel_spec c3StateLog).1 rfl).2.1,
    ((state_log_sentinel_spec c3StateLog).1 rfl).1⟩,
   ((state_log_sentinel_spec
      { id := ⟨2⟩, state := .building, level := .info, timestamp := 6, file := none,
        line := none, target := "t", fields := .obj [("message", .str "hi")],
        type := .event, address := none }).2 rfl).1⟩

/-- A span that attached no details is transparent to the scope walk of
`on_event`. -/
theorem findSome_skips_none (pre post : List (Option ScopeDetails)) :
    ((pre ++ none :: post).findSome? id) = ((pre ++ post).findSome? id) := by
  induction pre with
  | nil => simp [List.findSome?_cons]
  | cons a t ih => simp [List.findSome?_cons, ih]

/-- C4: a deployment-bearing span whose parsed id is the nil UUID is
dropped by `on_new_span` with only a warning: no state log is recorded,
no scope details are attached, and — since nothing was attached — no
event log is ever attributed to that span by `on_event`. -/
theorem nil_id_scope_dropped (m : Metadata) (recorded : List (String × String))
    (now : Nat) (hvalid : NewStateVisitor.is_valid m = true)
    (hnil : (visitAttributes recorded).id = Uuid.nil) :
    (on_new_span m recorded now).emitted = none ∧
    (on_new_span m recorded now).attached = none ∧
    (on_new_span m recorded now).warned = true ∧
    (∀ (pre post : List (Option ScopeDetails)) (m2 : Metadata) (f : JMap) (now2 : Nat),
      on_event (pre ++ (on_new_span m recorded now).attached :: post) m2 f now2 =
        on_event (pre ++ post) m2 f now2) := by
  have hres : on_new_span m recorded now =
      { emitted := none, attached := none, warned := true } := by
    simp [on_new_span, hvalid, hnil]
  refine ⟨by rw [hres], by rw [hres], by rw [hres], ?_⟩
  intro pre post m2 f now2
  rw [hres]
  show on_event (pre ++ none :: post) m2 f now2 = on_event (pre ++ post) m2 f now2
  unfold on_event
  rw [findSome_skips_none]

/-- C4 witness: a span declaring `id` and `state` whose recorded id is
the nil UUID. -/
theorem nil_id_scope_dropped_witness :
    (on_new_span
        { level := .info, target := "deployer::queue", file := none, line := none,
          isSpan := true, fieldNames := ["id", "state"] }
        [("id", "00000000-0000-0000-0000-000000000000"), ("state", "Building")]
        3).emitted = none ∧
    (on_new_span
        { level := .info, target := "deployer::queue", file := none, line := none,
          isSpan := true, fieldNames := ["id", "state"] }
        [("id", "00000000-0000-0000-0000-000000000000"), ("state", "Building")]
        3).attached = none :=
  ⟨(nil_id_scope_dropped
      { level := .info, target := "deployer::queue", file := none, line := none,
        isSpan := true, fieldNames := ["id", "state"] }
      [("id", "00000000-0000-0000-0000-000000000000"), ("state", "Building")]
      3 (by decide) (by decide)).1,
   (nil_id_scope_dropped
      { level := .info, target := "deployer::queue", file := none, line := none,
        isSpan := true, fieldNames := ["id", "state"] }
      [("id", "00000000-0000-0000-0000-000000000000"), ("state", "Building")]
      3 (by decide) (by decide)).2.1⟩

/-- Running the visitor over recorded `id` then `state` attributes yields
the parses with their fallbacks. -/
theorem visitAttributes_id_state (idv sv : String) :
    visitAttributes [("id", idv), ("state", sv)] =
      { id := (Uuid.tryParse idv).getD Uuid.nil,
        state := (State.fromStr sv).getD (default : State),
        address := none } := rfl

/-- C10: in the span-attribute visitor, a `state` value that does not
parse is silently replaced by the default state — the scope's state log
is still emitted carrying that default — and an `id` value that does not
parse is silently replaced by the nil UUID, so the scope is dropped (with
a warning) exactly like one recording an explicit nil id; neither parse
failure is an error. -/
theorem malformed_attribute_fallbacks (m : Metadata) (now : Nat)
    (hvalid : NewStateVisitor.is_valid m = true) :
    (∀ sv idv u, State.fromStr sv = none → Uuid.tryParse idv = some u →
      u ≠ Uuid.nil →
      ∃ log, (on_new_span m [("id", idv), ("state", sv)] now).emitted = some log ∧
        log.id = u ∧ log.state = (default : State)) ∧
    (∀ sv idv, Uuid.tryParse idv = none →
      on_new_span m [("id", idv), ("state", sv)] now =
        on_new_span m [("id", "00000000-0000-0000-0000-000000000000"), ("state", sv)]
          now ∧
      (on_new_span m [("id", idv), ("state", sv)] now).emitted = none ∧
      (on_new_span m [("id", idv), ("state", sv)] now).warned = true) := by
  constructor
  · intro sv idv u hsv hid hne
    have hdetails : visitAttributes [("id", idv), ("state", sv)] =
        { id := u, state := (default : State), address := none } := by
      rw [visitAttributes_id_state, hid, hsv]
      rfl
    refine ⟨{ id := u, state := (default : State), level := m.level,
              timestamp := now, file := m.file, line := m.line, target := m.target,
              fields := .prim .null, type := .state, address := none },
      ?_, rfl, rfl⟩
    simp [on_new_span, hvalid, hdetails, hne]
  · intro sv idv hid
    have hdetails : visitAttributes [("id", idv), ("state", sv)] =
        { id := Uuid.nil, state := (State.fromStr sv).getD (default : State),
          address := none } := by
      rw [visitAttributes_id_state, hid]
      rfl
    have hdetails2 : visitAttributes
        [("id", "00000000-0000-0000-0000-000000000000"), ("state", sv)] =
        { id := Uuid.nil, state := (State.fromStr sv).getD (default : State),
          address := none } := by
      rw [visitAttributes_id_state]
      rfl
    refine ⟨?_, ?_, ?_⟩
    · simp [on_new_span, hvalid, hdetails, hdetails2]
    · simp [on_new_span, hvalid, hdetails]
    · simp [on_new_span, hvalid, hdetails]

/-- C10 witness: a state name and an id string that both fail to parse,
next to an id that parses to a non-nil UUID. -/
theorem malformed_attribute_fallbacks_witness :
    (∃ log,
      (on_new_span
          { level := .info, target := "t", file := none, line := none,
            isSpan := true, fieldNames := ["id", "state"] }
          [("id", "9c8a4b52-cd6a-4f3e-9f2e-0123456789ab"), ("state", "NotAState")]
          7).emitted = some log ∧
      log.id = ⟨0xb52cd6a4f3e9f2e0123456789ab % 2 ^ 128 +
        0x9c8a4 * 16 ^ 27⟩ ∧ log.state = (default : State)) ∧
    (on_new_span
        { level := .info, target := "t", file := none, line := none,
          isSpan := true, fieldNames := ["id", "state"] }
        [("id", "zz"), ("state", "Running")] 7).emitted = none := by
  constructor
  · have h := (malformed_attribute_fallbacks
      { level := .info, target := "t", file := none, line := none,
        isSpan := true, fieldNames := ["id", "state"] } 7 (by decide)).1
      "NotAState" "9c8a4b52-cd6a-4f3e-9f2e-0123456789ab"
      ⟨0xb52cd6a4f3e9f2e0123456789ab % 2 ^ 128 + 0x9c8a4 * 16 ^ 27⟩
      (by decide) (by decide) (by decide)
    exact h
  · exact ((malformed_attribute_fallbacks
      { level := .info, target := "t", file := none, line := none,
        isSpan := true, fieldNames := ["id", "state"] } 7 (by decide)).2
      "Running" "zz" (by decide)).2.1

/-- Looking up a key just removed from a JSON map finds nothing. -/
theorem lookup_erase_self (m : JMap) (k : String) :
    List.lookup k (JMap.erase m k) = none := by
  induction m with
  | nil => rfl
  | cons p t ih =>
    by_cases h : p.1 = k
    · simp [JMap.erase, List.filter_cons, h] at ih ⊢
      exact ih
    · simp [JMap.erase, List.filter_cons, h, List.lookup_cons] at ih ⊢
      refine ⟨fun hk => (h hk.symm).elim, ih⟩

/-- Removing one key from a JSON map leaves lookups of other keys
unchanged. -/
theorem lookup_erase_ne (m : JMap) (k k' : String) (h : k' ≠ k) :
    List.lookup k' (JMap.erase m k) = List.lookup k' m := by
  induction m with
  | nil => rfl
  | cons p t ih =>
    obtain ⟨pk, pv⟩ := p
    by_cases hp : pk = k
    · subst hp
      have h2 : (k' == pk) = false := by simp [h]
      simp [JMap.erase, List.filter_cons, List.lookup_cons, h2] at ih ⊢
      exact ih
    · simp [JMap.erase, List.filter_cons, List.lookup_cons, hp] at ih ⊢
      by_cases hk : k' = pk
      · simp [hk]
      · have h2 : (k' == pk) = false := by simp [hk]
        simp [h2, ih]

/-- C8: for every event emitted inside a deployment-bearing scope, the
bridge fields `log.target`, `log.line` and `log.file` carried by the
event populate the emitted log's `target`, `line` and `file` columns
(the event metadata's values are used when they are absent), and none of
`log.target`, `log.line`, `log.file`, `log.module_path` survive into the
emitted `fields` object. -/
theorem bridge_fields_promoted (stack : List (Option ScopeDetails)) (m : Metadata)
    (fields : JMap) (now : Nat) (log : DeployLog)
    (h : on_event stack m fields now = some log) :
    (∀ s, List.lookup "log.target" fields = some (.str s) → log.target = s) ∧
    (List.lookup "log.target" fields = none → log.target = m.target) ∧
    (∀ n, List.lookup "log.line" fields = some (.num n) → n < 2 ^ 32 →
      log.line = some n) ∧
    (List.lookup "log.line" fields = none → log.line = m.line) ∧
    (∀ s, List.lookup "log.file" fields = some (.str s) → log.file = some s) ∧
    (List.lookup "log.file" fields = none → log.file = m.file) ∧
    (∀ fm, log.fields = .obj fm →
      List.lookup "log.target" fm = none ∧ List.lookup "log.line" fm = none ∧
      List.lookup "log.file" fm = none ∧ List.lookup "log.module_path" fm = none) := by
  unfold on_event at h
  rcases Option.map_eq_some'.mp h with ⟨details, _, rfl⟩
  refine ⟨?_, ?_, ?_, ?_, ?_, ?_, ?_⟩
  · intro s hs
    simp [mkEventLog, hs, JPrim.asStr]
  · intro hs
    simp [mkEventLog, hs]
  · intro n hn hlt
    simp [mkEventLog, hn, JPrim.asU64, hlt]
    exact hlt
  · intro hn
    simp [mkEventLog, hn]
  · intro s hs
    simp [mkEventLog, hs, JPrim.asStr]
  · intro hs
    simp [mkEventLog, hs]
  · intro fm hfm
    have hrem : fm = (((fields.erase "log.target").erase "log.line").erase
        "log.file").erase "log.module_path" := by
      have : (mkEventLog details m fields now).fields = JVal.obj
          ((((fields.erase "log.target").erase "log.line").erase
            "log.file").erase "log.module_path") := rfl
      rw [this] at hfm
      exact (JVal.obj.injEq _ _ ▸ hfm).symm
    subst hrem
    refine ⟨?_, ?_, ?_, ?_⟩
    · rw [lookup_erase_ne _ _ _ (by decide), lookup_erase_ne _ _ _ (by decide),
        lookup_erase_ne _ _ _ (by decide), lookup_erase_self]
    · rw [lookup_erase_ne _ _ _ (by decide), lookup_erase_ne _ _ _ (by decide),
        lookup_erase_self]
    · rw [lookup_erase_ne _ _ _ (by decide), lookup_erase_self]
    · rw [lookup_erase_self]


/-- Concrete scope details for the C8 witness. -/
def c8Details : ScopeDetails := ⟨⟨9⟩, .building, none⟩

/-- Concrete event metadata for the C8 witness. -/
def c8Meta : Metadata :=
  { level := .info, target := "meta_target", file := some "meta.rs",
    line := some 1, isSpan := false, fieldNames := [] }

/-- Concrete captured event fields for the C8 witness, carrying all four
bridge fields. -/
def c8Fields : JMap :=
  [("message", .str "hello"), ("log.target", .str "bridge_target"),
   ("log.line", .num 42), ("log.file", .str "bridge.rs"),
   ("log.module_path", .str "a::b")]

/-- C8 witness: the promotions evaluated on a concrete event. -/
theorem bridge_fields_promoted_witness :
    (mkEventLog c8Details c8Meta c8Fields 3).target = "bridge_target" ∧
    (mkEventLog c8Details c8Meta c8Fields 3).line = some 42 ∧
    (mkEventLog c8Details c8Meta c8Fields 3).file = some "bridge.rs" ∧
    List.lookup "log.target" ([("message", JPrim.str "hello")] : JMap) = none ∧
    List.lookup "log.module_path" ([("message", JPrim.str "hello")] : JMap) = none := by
  have h := bridge_fields_promoted [some c8Details] c8Meta c8Fields 3
    (mkEventLog c8Details c8Meta c8Fields 3) rfl
  exact ⟨h.1 "bridge_target" rfl, h.2.2.1 42 rfl (by decide),
    h.2.2.2.2.1 "bridge.rs" rfl,
    (h.2.2.2.2.2.2 [("message", JPrim.str "hello")] rfl).1,
    (h.2.2.2.2.2.2 [("message", JPrim.str "hello")] rfl).2.2.2⟩

/-- The name of the (unique, when the store is well-formed) service with
the given id. -/
def serviceName (db : DB) (sid : Uuid) : Option String :=
  ((db.services.filter (fun s => s.id = sid)).head?).map Service.name

/-- Under referential integrity — each deployment's `service_id` matches
exactly one service — the runnable join degenerates to a map over the
Running rows. -/
theorem runnableJoin_eq_aux (services : List Service) :
    ∀ (l : List Deployment),
      (∀ d ∈ l, (services.filter (fun s => s.id = d.service_id)).length = 1) →
      (l.flatMap (fun d =>
        if d.state = .running then
          (services.filter (fun s => s.id = d.service_id)).map
            (fun s => (⟨d.id, d.service_id, s.name, d.last_update⟩ : RunnableRow))
        else [])) =
      ((l.filter (fun d => d.state = .running)).map
        (fun d => (⟨d.id, d.service_id,
          (((services.filter (fun s => s.id = d.service_id)).head?).map
            Service.name).getD "",
          d.last_update⟩ : RunnableRow))) := by
  intro l
  induction l with
  | nil => intro _; rfl
  | cons d t ih =>
    intro hwf
    have hd := hwf d (List.mem_cons_self d t)
    have ht := fun d' hd' => hwf d' (List.mem_cons_of_mem d hd')
    obtain ⟨s, hs⟩ := List.length_eq_one.mp hd
    rw [List.flatMap_cons, List.filter_cons, ih ht]
    by_cases hr : d.state = .running
    · simp only [hr, if_pos, decide_True, hs, List.head?, List.map_cons, List.map_nil]
      rfl
    · simp only [hr, if_neg, Bool.false_eq_true, not_false_iff]
      simp [hr]

/-- C7: `get_all_runnable_deployments()` returns exactly the deployment
rows whose state is Running (one result row per Running row, none for
any other state), each joined with its service's name, and the rows it
projects from are sorted by `last_update` ascending.  The hypothesis is
the schema's referential integrity: every deployment's `service_id`
matches exactly one service. -/
theorem get_all_runnable_deployments_spec (db : DB)
    (hwf : ∀ d ∈ db.deployments,
      (db.services.filter (fun s => s.id = d.service_id)).length = 1) :
    List.Sorted runnableByLastUpdate (runnableRows db) ∧
    db.get_all_runnable_deployments = (runnableRows db).map
      (fun r => ⟨r.id, r.service_name, r.service_id⟩) ∧
    List.Perm (runnableRows db)
      ((db.deployments.filter (fun d => d.state = .running)).map
        (fun d => ⟨d.id, d.service_id, (serviceName db d.service_id).getD "",
          d.last_update⟩)) ∧
    (∀ x ∈ db.get_all_runnable_deployments, ∃ d ∈ db.deployments,
      d.state = .running ∧ x.id = d.id ∧ x.service_id = d.service_id ∧
      serviceName db d.service_id = some x.service_name) := by
  have hjoin : runnableJoin db =
      (db.deployments.filter (fun d => d.state = .running)).map
        (fun d => ⟨d.id, d.service_id, (serviceName db d.service_id).getD "",
          d.last_update⟩) :=
    runnableJoin_eq_aux db.services db.deployments hwf
  have hperm : List.Perm (runnableRows db) (runnableJoin db) :=
    List.perm_insertionSort runnableByLastUpdate (runnableJoin db)
  refine ⟨List.sorted_insertionSort runnableByLastUpdate (runnableJoin db), rfl,
    hjoin ▸ hperm, ?_⟩
  intro x hx
  rcases List.mem_map.mp hx with ⟨r, hr, rfl⟩
  have hrj : r ∈ runnableJoin db := hperm.mem_iff.mp hr
  rw [hjoin] at hrj
  rcases List.mem_map.mp hrj with ⟨d, hd, rfl⟩
  have hdmem : d ∈ db.deployments := List.mem_of_mem_filter hd
  have hdrun : d.state = .running := by
    have := List.of_mem_filter hd
    exact of_decide_eq_true this
  obtain ⟨s, hs⟩ := List.length_eq_one.mp (hwf d hdmem)
  have hname : serviceName db d.service_id = some s.name := by
    simp [serviceName, hs]
  exact ⟨d, hdmem, hdrun, rfl, rfl, by simp [hname]⟩


/-- Concrete store for the C7 witness: two Running rows out of order and
one Stopped row. -/
def c7db : DB :=
  { services := [⟨⟨10⟩, "foo"⟩, ⟨⟨11⟩, "bar"⟩],
    deployments := [⟨⟨2⟩, ⟨11⟩, .running, 5, none⟩, ⟨⟨1⟩, ⟨10⟩, .running, 2, none⟩,
      ⟨⟨3⟩, ⟨10⟩, .stopped, 1, none⟩],
    logs := [], secrets := [] }

/-- C7 witness: sortedness and membership evaluated on `c7db`. -/
theorem get_all_runnable_deployments_spec_witness :
    List.Sorted runnableByLastUpdate (runnableRows c7db) ∧
    (∃ d ∈ c7db.deployments, d.state = .running ∧
      (⟨⟨1⟩, "foo", ⟨10⟩⟩ : DeploymentRunnable).id = d.id ∧
      (⟨⟨1⟩, "foo", ⟨10⟩⟩ : DeploymentRunnable).service_id = d.service_id ∧
      serviceName c7db d.service_id =
        some (⟨⟨1⟩, "foo", ⟨10⟩⟩ : DeploymentRunnable).service_name) :=
  ⟨(get_all_runnable_deployments_spec c7db (by decide)).1,
   (get_all_runnable_deployments_spec c7db (by decide)).2.2.2
     ⟨⟨1⟩, "foo", ⟨10⟩⟩ (by decide)⟩


/-- A deployment row matched by the `get_address_for_service` query: a
Running deployment of a service named `n`. -/
def matchingRunning (db : DB) (n : String) (d : Deployment) : Prop :=
  d ∈ db.deployments ∧ d.state = .running ∧
  ∃ s ∈ db.services, s.id = d.service_id ∧ s.name = n

instance (db : DB) (n : String) (d : Deployment) :
    Decidable (matchingRunning db n d) :=
  inferInstanceAs (Decidable (d ∈ db.deployments ∧ d.state = .running ∧
    ∃ s ∈ db.services, s.id = d.service_id ∧ s.name = n))

/-- The rows produced by the address query are exactly the matching
Running deployments. -/
theorem mem_addressQueryRows (db : DB) (n : String) (d' : Deployment) :
    d' ∈ addressQueryRows db n ↔ matchingRunning db n d' := by
  unfold addressQueryRows matchingRunning
  rw [List.mem_flatMap]
  constructor
  · rintro ⟨d, hd, hin⟩
    by_cases hr : d.state = .running
    · rw [if_pos hr] at hin
      rcases List.mem_map.mp hin with ⟨s, hs, rfl⟩
      have hs1 := List.mem_of_mem_filter hs
      have hs2 : s.id = d.service_id ∧ s.name = n := by
        have h2 := List.of_mem_filter hs
        simpa using h2
      exact ⟨hd, hr, s, hs1, hs2⟩
    · rw [if_neg hr] at hin
      exact absurd hin (List.not_mem_nil d')
  · rintro ⟨hmem, hrun, s, hs, hsid, hname⟩
    refine ⟨d', hmem, ?_⟩
    rw [if_pos hrun]
    exact List.mem_map.mpr ⟨s, List.mem_filter.mpr ⟨hs, by simp [hsid, hname]⟩, rfl⟩

/-- C1 (amended): under the invariant that at most one deployment of
service `n` is Running, `get_address_for_service(n)` returns `Some(a)`
iff the store contains a Running row of a service named `n` whose
address string parses to `a`, and returns `None` iff it contains no
Running row of that service.  (A matching row whose address is NULL or
unparseable surfaces as an error, not as `None`.) -/
theorem get_address_for_service_spec (db : DB) (n : String)
    (huniq : ∀ d1 ∈ db.deployments, ∀ d2 ∈ db.deployments,
      matchingRunning db n d1 → matchingRunning db n d2 → d1 = d2) :
    (db.get_address_for_service n = .ok none ↔ ¬∃ d, matchingRunning db n d) ∧
    (∀ a, db.get_address_for_service n = .ok (some a) ↔
      ∃ d, matchingRunning db n d ∧ ∃ str, d.address = some str ∧
        SocketAddr.fromStr str = some a) := by
  have hmem : ∀ d, d ∈ List.insertionSort byLastUpdate (addressQueryRows db n) ↔
      matchingRunning db n d := by
    intro d
    rw [(List.perm_insertionSort byLastUpdate (addressQueryRows db n)).mem_iff]
    exact mem_addressQueryRows db n d
  cases hh : (List.insertionSort byLastUpdate (addressQueryRows db n)).head? with
  | none =>
    have hnil : List.insertionSort byLastUpdate (addressQueryRows db n) = [] :=
      List.head?_eq_none_iff.mp hh
    have hget : db.get_address_for_service n = .ok none := by
      unfold DB.get_address_for_service
      rw [hh]
    have hno : ¬∃ d, matchingRunning db n d := by
      rintro ⟨d, hd⟩
      have hmm := (hmem d).mpr hd
      rw [hnil] at hmm
      exact absurd hmm (List.not_mem_nil d)
    refine ⟨⟨fun _ => hno, fun _ => hget⟩, ?_⟩
    intro a
    constructor
    · intro h
      rw [hget] at h
      simp at h
    · rintro ⟨d, hd, _⟩
      exact absurd ⟨d, hd⟩ hno
  | some d0 =>
    have hd0 : matchingRunning db n d0 :=
      (hmem d0).mp (List.mem_of_mem_head? (Option.mem_def.mpr hh))
    have hget : db.get_address_for_service n =
        (match d0.address with
          | none => .error .persistence
          | some addressStr =>
            match SocketAddr.fromStr addressStr with
            | some address => .ok (some address)
            | none => .error .convert) := by
      unfold DB.get_address_for_service
      rw [hh]
    constructor
    · constructor
      · intro h
        rw [hget] at h
        exfalso
        cases ha : d0.address with
        | none =>
          simp only [ha] at h
          exact Except.noConfusion h
        | some str =>
          cases hp : SocketAddr.fromStr str with
          | none =>
            simp only [ha, hp] at h
            exact Except.noConfusion h
          | some v =>
            simp only [ha, hp] at h
            simp at h
      · intro h
        exact absurd ⟨d0, hd0⟩ h
    · intro a
      constructor
      · intro h
        rw [hget] at h
        cases ha : d0.address with
        | none =>
          simp only [ha] at h
          exact Except.noConfusion h
        | some str =>
          cases hp : SocketAddr.fromStr str with
          | none =>
            simp only [ha, hp] at h
            exact Except.noConfusion h
          | some a' =>
            simp only [ha, hp] at h
            have haa : a' = a := by
              simpa using h
            exact ⟨d0, hd0, str, ha, by rw [hp, haa]⟩
      · rintro ⟨d, hd, str, haddr, hparse⟩
        have heq : d0 = d := huniq d0 hd0.1 d hd.1 hd0 hd
        subst heq
        rw [hget]
        simp only [haddr, hparse]

/-- Store for the C1 counterexample: two Running rows of the same
service with different addresses, distinguished by `last_update`. -/
def c1db : DB :=
  { services := [⟨⟨10⟩, "svc"⟩],
    deployments := [⟨⟨1⟩, ⟨10⟩, .running, 1, some "10.0.0.1:1000"⟩,
      ⟨⟨2⟩, ⟨10⟩, .running, 2, some "10.0.0.2:2000"⟩],
    logs := [], secrets := [] }

/-- C1 counterexample: with two Running rows of service `svc`, the query
returns only the first row's address (ordered by `last_update`), so
"`Some(a)` iff some Running row of the service holds `a`" fails — the
second row's address satisfies the right side but is never returned. -/
theorem get_address_claim_counterexample :
    ¬(∀ a : SocketAddr, c1db.get_address_for_service "svc" = .ok (some a) ↔
      ∃ d, matchingRunning c1db "svc" d ∧ ∃ str, d.address = some str ∧
        SocketAddr.fromStr str = some a) := by
  intro hclaim
  have h2 := (hclaim ⟨10, 0, 0, 2, 2000⟩).mpr
    ⟨⟨⟨2⟩, ⟨10⟩, .running, 2, some "10.0.0.2:2000"⟩, by decide,
     "10.0.0.2:2000", rfl, by decide⟩
  have h3 : c1db.get_address_for_service "svc" = .ok (some ⟨10, 0, 0, 1, 1000⟩) := by
    rfl
  rw [h3] at h2
  simp at h2

/-- Store for the C1 witness: exactly one Running row of service
`svc`. -/
def c1wdb : DB :=
  { services := [⟨⟨10⟩, "svc"⟩],
    deployments := [⟨⟨1⟩, ⟨10⟩, .running, 1, some "10.0.0.1:1000"⟩,
      ⟨⟨3⟩, ⟨10⟩, .stopped, 4, some "10.9.9.9:9"⟩],
    logs := [], secrets := [] }

/-- C1 witness: the amended claim evaluated on a store with a unique
Running row. -/
theorem get_address_for_service_spec_witness :
    c1wdb.get_address_for_service "svc" = .ok (some ⟨10, 0, 0, 1, 1000⟩) :=
  ((get_address_for_service_spec c1wdb "svc" (by decide)).2 ⟨10, 0, 0, 1, 1000⟩).mpr
    ⟨⟨⟨1⟩, ⟨10⟩, .running, 1, some "10.0.0.1:1000"⟩, by decide,
     "10.0.0.1:1000", rfl, by decide⟩
